import Mathlib

/-!
This file is a shallow embedding, in Lean 4, of the intent-classification
pipeline implemented in `src/intent_expansion_pipeline.py`, together with
theorems settling the behavioural claims about it.

Modelling conventions:
* Python strings are Lean `String`s; the string-manipulation primitives the
  source relies on (`in`, `split`, `strip`, `lower`) are embedded as
  executable functions over `String.data : List Char`.
* The remote Gemini call (`self.model.generate_content`) is an external
  collaborator; it is modelled as an oracle `Nat → String → GenOutcome`
  giving, for each attempt index, either the response text or a raised
  exception's message.  `json.loads` is likewise external and is modelled as
  a parameter `decode : String → Except String PyJson`: either a decode
  failure (carrying the exception's message) or a decoded value, which for
  the purposes of this program is either a JSON object (a key/value list,
  values kept as strings) or some non-object value, on which Python's
  `result_dict["primary"]` subscript raises `TypeError`.
* Machine-level details that no claim observes (logging, the literal
  system-prompt text, API-key handling) are kept abstract: the system prompt
  is a configuration field, per the source where `_build_system_prompt` is
  static configuration data.
-/

namespace IntentPipeline

/-- The backtick character, written via its code point. -/
def backtick : Char := Char.ofNat 96

/-- Python whitespace characters recognised by `str.strip()`. -/
def pySpace (c : Char) : Bool :=
  c == ' ' || c == '\t' || c == '\n' || c == '\r' || c == Char.ofNat 11 || c == Char.ofNat 12

/-- Embedding of Python `str.strip()` on character lists. -/
def pyStripL (l : List Char) : List Char :=
  ((l.dropWhile pySpace).reverse.dropWhile pySpace).reverse

/-- Embedding of Python `str.strip()`. -/
def pyStrip (s : String) : String := String.mk (pyStripL s.data)

/-- Embedding of Python `needle in hay` on character lists: does `needle`
occur as a contiguous substring? -/
def pyInL (needle : List Char) : List Char → Bool
  | [] => needle.isEmpty
  | c :: rest => needle.isPrefixOf (c :: rest) || pyInL needle rest

/-- Embedding of Python `needle in hay` on strings. -/
def pyIn (needle hay : String) : Bool := pyInL needle.data hay.data

/-- Embedding of Python `str.lower()`.  The source only matches ASCII
keywords, for which `Char.toLower` agrees with Python's `lower`. -/
def pyLower (s : String) : String := String.mk (s.data.map Char.toLower)

/-- The suffix of `l` strictly after the first occurrence of `sep`, or
`none` when `sep` does not occur.  This is the position at which Python's
`l.split(sep)` makes its first cut. -/
def afterFirst (sep : List Char) : List Char → Option (List Char)
  | [] => if sep.isPrefixOf ([] : List Char) then some [] else none
  | c :: rest =>
    if sep.isPrefixOf (c :: rest) then some ((c :: rest).drop sep.length)
    else afterFirst sep rest

/-- The prefix of `l` before the first occurrence of `sep` (all of `l` when
`sep` does not occur).  This is Python's `l.split(sep)[0]`. -/
def beforeFirst (sep : List Char) : List Char → List Char
  | [] => []
  | c :: rest =>
    if sep.isPrefixOf (c :: rest) then []
    else c :: beforeFirst sep rest

/-- Python's `l.split(sep)[1]`: the segment between the first and second
occurrence of `sep`.  The source only evaluates this under an
`if sep in l` guard, so the `none` case is unreachable there. -/
def splitSecond (sep : List Char) (l : List Char) : List Char :=
  match afterFirst sep l with
  | some r => beforeFirst sep r
  | none => []

/-- The characters of the fence marker `"\x60\x60\x60json"`. -/
def fenceJson : List Char := "```json".data

/-- The characters of the fence marker `"\x60\x60\x60"`. -/
def fence : List Char := "```".data

/-- Embedding of the fence-stripping logic of `_parse_json_response`
(`src/intent_expansion_pipeline.py` lines 284-288):
if `"\x60\x60\x60json" in response_text`, take
`response_text.split("\x60\x60\x60json")[1].split("\x60\x60\x60")[0].strip()`;
elif `"\x60\x60\x60" in response_text`, take
`response_text.split("\x60\x60\x60")[1].split("\x60\x60\x60")[0].strip()`;
else the raw text unmodified. -/
def extractJsonBlock (t : String) : String :=
  if pyIn "```json" t then
    String.mk (pyStripL (beforeFirst fence (splitSecond fenceJson t.data)))
  else if pyIn "```" t then
    String.mk (pyStripL (beforeFirst fence (splitSecond fence t.data)))
  else t

/-- Python float values; `IntentResult.confidence` is declared
`Optional[float]` but no code path ever constructs one, so the carrier is
irrelevant and is modelled by `Rat`. -/
abbrev PyFloat : Type := Rat

/-- Embedding of the `IntentResult` dataclass (lines 18-24).  `confidence`
and `reasoning` default to `None`. -/
structure IntentResult where
  primary : String
  secondary : String
  confidence : Option PyFloat := none
  reasoning : Option String := none
deriving DecidableEq

instance : Inhabited IntentResult := ⟨⟨"", "", none, none⟩⟩

/-- A decoded JSON value as `json.loads` would return it: either a JSON
object (a dict; modelled as key/value pairs with string values) or any
non-object value (number, list, string, boolean, null), on which the
source's `result_dict["primary"]` subscript raises `TypeError`. -/
inductive PyJson where
  | obj (entries : List (String × String))
  | nonObj
deriving DecidableEq

/-- Python exceptions caught by the retry loop's two `except` arms. -/
inductive PyErr where
  /-- `json.JSONDecodeError` raised by `json.loads`, with its message. -/
  | jsonDecode (msg : String)
  /-- `KeyError` from `result_dict["primary"]` / `["secondary"]`. -/
  | keyError (key : String)
  /-- `TypeError` from subscripting a non-dict decoded value. -/
  | typeError
  /-- Any exception escaping the remote `generate_content` call, with its
  `str(e)` message. -/
  | apiError (msg : String)
deriving DecidableEq

/-- The message CPython attaches to the `TypeError` raised when subscripting
a JSON-decodable non-dict value (for example
`\x27int\x27 object is not subscriptable`); for every such value that
message contains no occurrence of `api` in any case. -/
def typeErrorMsg : String := "object is not subscriptable"

/-- Python `str(e)` for each modelled exception; `str` of a `KeyError`
is the `repr` of the missing key, hence the quotes. -/
def errStr : PyErr → String
  | .jsonDecode m => m
  | .keyError k => "\x27" ++ k ++ "\x27"
  | .typeError => typeErrorMsg
  | .apiError m => m

/-- One outcome of the remote `generate_content` call: the (already
extracted) `response.text`, or the message of a raised exception. -/
inductive GenOutcome where
  | ok (text : String)
  | err (msg : String)
deriving DecidableEq

/-- The remote model, indexed by attempt number and called with the full
prompt: each retry may behave differently. -/
abbrev GenOracle := Nat → String → GenOutcome

/-- The external JSON decoder (`json.loads`): a decode-error message or a
decoded value. -/
abbrev JsonDecoder := String → Except String PyJson

deriving instance DecidableEq for Except

/-- Embedding of `_parse_json_response` (lines 274-291): strip the optional
fenced-block wrapping, then hand the extracted text to `json.loads`. -/
def parse_json_response (decode : JsonDecoder) (response_text : String) :
    Except String PyJson :=
  decode (extractJsonBlock response_text)

/-- Embedding of the per-attempt parse phase of `classify`
(lines 236-243): run `_parse_json_response` on the response text, then read
`result_dict["primary"]`, `result_dict["secondary"]` and
`result_dict.get("reasoning", "")` to build the `IntentResult`. -/
def parse_step (decode : JsonDecoder) (response_text : String) :
    Except PyErr IntentResult :=
  match parse_json_response decode response_text with
  | .error em => .error (.jsonDecode em)
  | .ok .nonObj => .error .typeError
  | .ok (.obj es) =>
    match es.lookup "primary" with
    | none => .error (.keyError "primary")
    | some p =>
      match es.lookup "secondary" with
      | none => .error (.keyError "secondary")
      | some s =>
        .ok { primary := p, secondary := s, confidence := none,
              reasoning := some ((es.lookup "reasoning").getD "") }

/-- The classifier's configuration state, set in `__init__` (lines 32-60)
and only ever read afterwards.  The literal system-prompt text built by
`_build_system_prompt` is static configuration data, kept abstract here. -/
structure Config where
  max_retries : Nat
  fallback_enabled : Bool
  model_name : String
  system_prompt : String
deriving DecidableEq

/-- Embedding of the `user_prompt` f-string of `classify` (lines 212-218);
an empty history is falsy in Python and is replaced by the explicit
no-prior-context marker. -/
def user_prompt (conversation_history current_message : String) : String :=
  "**CONVERSATION HISTORY:**\n"
    ++ (if conversation_history = "" then "[No prior conversation]" else conversation_history)
    ++ "\n\n**CURRENT CUSTOMER MESSAGE:**\n" ++ current_message
    ++ "\n\nClassify this message and return JSON only."

/-- Embedding of `full_prompt` (line 221): system prompt and user prompt
joined by a blank line. -/
def full_prompt (system_prompt conversation_history current_message : String) : String :=
  system_prompt ++ "\n\n" ++ user_prompt conversation_history current_message

/-- The outcome of one iteration of the retry loop's `try` block: a built
`IntentResult`, or a caught exception together with the new value of
`response_text` (`some` exactly when the remote call succeeded this
attempt, since `response_text` is assigned before parsing). -/
inductive AttemptRes where
  | success (r : IntentResult)
  | failure (e : PyErr) (newText : Option String)
deriving DecidableEq

/-- Whether an attempt failed. -/
def AttemptRes.isFail : AttemptRes → Bool
  | .success _ => false
  | .failure _ _ => true

/-- The caught exception of a failed attempt. -/
def AttemptRes.errOf : AttemptRes → Option PyErr
  | .success _ => none
  | .failure e _ => some e

/-- One full attempt of the retry loop body (lines 210-252): call the
remote model; on success strip the response text (`response.text.strip()`,
line 233) and run the parse phase. -/
def attemptOnce (oracle : GenOracle) (decode : JsonDecoder) (prompt : String)
    (i : Nat) : AttemptRes :=
  match oracle i prompt with
  | .err m => .failure (.apiError m) none
  | .ok raw =>
    match parse_step decode (pyStrip raw) with
    | .ok r => .success r
    | .error e => .failure e (some (pyStrip raw))

/-- Exit state of the `while attempts <= self.max_retries` loop: an early
`return` with a result, or exhaustion carrying the final `last_error` and
`response_text` variables.  The attempt counter records how many attempts
were performed. -/
inductive LoopOut where
  | success (r : IntentResult) (attempts : Nat)
  | exhausted (lastErr : Option PyErr) (respText : String) (attempts : Nat)
deriving DecidableEq

/-- Embedding of the retry loop of `classify` (lines 205-252).  `a` is the
source's `attempts` variable (failures so far), `remaining` is
`max_retries + 1 - attempts` (the loop guard `attempts <= max_retries`
written as a structural recursion), `le` is `last_error` and `rt` is
`response_text`. -/
def classifyGo (oracle : GenOracle) (decode : JsonDecoder) (prompt : String) :
    Nat → Nat → Option PyErr → String → LoopOut
  | a, 0, le, rt => .exhausted le rt a
  | a, r + 1, _le, rt =>
    match attemptOnce oracle decode prompt a with
    | .success res => .success res (a + 1)
    | .failure e nt => classifyGo oracle decode prompt (a + 1) r (some e) (nt.getD rt)

/-- The typed errors `classify` can raise when fallback is disabled
(lines 263-272): `ValueError` for parse-style failures, the
`API Error:`-prefixed `Exception` for messages mentioning the API, and the
generic `Error:`-prefixed (or unknown) `Exception` otherwise. -/
inductive RaisedErr where
  | valueError (msg : String)
  | apiException (msg : String)
  | genericException (msg : String)
deriving DecidableEq

/-- Python `str(e)` of a raised error. -/
def raisedStr : RaisedErr → String
  | .valueError m => m
  | .apiException m => m
  | .genericException m => m

/-- Embedding of the fallback-disabled raise of `classify` (lines 263-272):
dispatch on `last_error` by `isinstance` checks, then on whether its
message contains `API` or (lower-cased) `api`. -/
def raiseLastError : Option PyErr → String → RaisedErr
  | none, _ => .genericException "Unknown classification error"
  | some e, rt =>
    match e with
    | .jsonDecode _ => .valueError ("Failed to parse JSON response: " ++ rt)
    | .keyError k => .valueError ("Missing required field in response: " ++ errStr (.keyError k))
    | _ =>
      if pyIn "API" (errStr e) || pyIn "api" (pyLower (errStr e)) then
        .apiException ("API Error: " ++ errStr e)
      else
        .genericException ("Error: " ++ errStr e)

/-- The ordered rule table of `_rule_based_intent` (lines 330-378).  Python
dict literals preserve insertion order (guaranteed since Python 3.7), so
`rules.items()` iterates exactly in this textual order. -/
def fallback_rules : List ((String × String) × List String) :=
  [ (("Logistics", "order_status"),
      ["where is my order", "track", "tracking", "order status", "not received",
       "not delivered", "pending", "kaha hai"]),
    (("Logistics", "order_delivered_but_not_received"),
      ["marked delivered", "shows delivered", "status delivered",
       "delivered but not received"]),
    (("Logistics", "delivery_delay"),
      ["delayed", "delay", "late"]),
    (("Logistics", "wrong_order"),
      ["wrong item", "damaged", "broken", "missing", "exchange", "return"]),
    (("Basic Interactions", "greetings"),
      ["hi", "hello", "hey"]),
    (("Basic Interactions", "acknowledgment"),
      ["ok", "okay", "thanks", "thank you"]),
    (("Basic Interactions", "language_preference"),
      ["hindi", "tamil", "telugu", "kannada", "language"]) ]

/-- Whether a rule's keyword list has any substring match against `text`
(`any(keyword in text for keyword in keywords)`, line 381). -/
def ruleMatches (r : (String × String) × List String) (text : String) : Bool :=
  r.2.any (fun kw => pyIn kw text)

/-- Embedding of `_rule_based_intent` (lines 319-384): lower-case the
space-joined history and message (`f"{conversation_history}
{current_message}".lower()`), then return the first rule with a keyword
match, or `None`. -/
def rule_based_intent (current_message conversation_history : String) :
    Option (String × String) :=
  let text := pyLower (conversation_history ++ " " ++ current_message)
  (fallback_rules.find? (fun r => ruleMatches r text)).map (fun r => r.1)

/-- Embedding of `_build_fallback_result` (lines 293-317): for a truthy
current message, try the rule-based match; otherwise return the
safe-default result.  Both outcomes tag the upstream error reason in
`reasoning`. -/
def build_fallback_result (error_reason current_message conversation_history : String) :
    IntentResult :=
  let deflt : IntentResult :=
    { primary := "Special Categories", secondary := "out_of_scope", confidence := none,
      reasoning := some ("Fallback classification used due to error: " ++ error_reason) }
  if current_message ≠ "" then
    match rule_based_intent current_message conversation_history with
    | some (p, s) =>
      { primary := p, secondary := s, confidence := none,
        reasoning := some ("Rule-based fallback classification after error: " ++ error_reason) }
    | none => deflt
  else deflt

/-- What `classify` does for its caller: return a result or raise. -/
inductive ClassifyResult where
  | ok (r : IntentResult)
  | raised (e : RaisedErr)
deriving DecidableEq

/-- A `classify` call's observable outcome together with the number of
attempts it performed (the source's `attempts` counter at exit, counting
the final successful attempt when there is one). -/
structure ClassifyTrace where
  result : ClassifyResult
  attempts : Nat
deriving DecidableEq

/-- Embedding of `classify` (lines 186-272): run the retry loop starting
from `attempts = 0`, `last_error = None`, `response_text = ""`; on
exhaustion either build the fallback result from `str(last_error)` (or
`"Unknown error"` when no error was recorded) or raise the mapped typed
error. -/
def classifyRun (cfg : Config) (oracle : GenOracle) (decode : JsonDecoder)
    (current_message conversation_history : String) : ClassifyTrace :=
  let prompt := full_prompt cfg.system_prompt conversation_history current_message
  match classifyGo oracle decode prompt 0 (cfg.max_retries + 1) none "" with
  | .success r a => { result := .ok r, attempts := a }
  | .exhausted le rt a =>
    if cfg.fallback_enabled then
      { result := .ok (build_fallback_result
          (match le with | some e => errStr e | none => "Unknown error")
          current_message conversation_history),
        attempts := a }
    else
      { result := .raised (raiseLastError le rt), attempts := a }

/-- The result of `classify` as seen by its caller. -/
def classify (cfg : Config) (oracle : GenOracle) (decode : JsonDecoder)
    (current_message conversation_history : String) : ClassifyResult :=
  (classifyRun cfg oracle decode current_message conversation_history).result

/-- A family of remote oracles, one per batch item: each worker's
`generate_content` calls are independent of its siblings'. -/
abbrev BatchOracle := Nat → GenOracle

/-- Embedding of the `_worker` closure of `classify_batch` (lines 408-417):
run `classify` for the item; a raised exception is caught locally and
converted into a fallback result tagged with `str(e)`. -/
def worker_result (cfg : Config) (oracle_i : GenOracle) (decode : JsonDecoder)
    (history message : String) : IntentResult :=
  match classify cfg oracle_i decode message history with
  | .ok r => r
  | .raised e => build_fallback_result (raisedStr e) message history

/-- Embedding of the sequential branch of `classify_batch` (line 404): a
left-to-right list comprehension over `self.classify(message, history)`;
the first raised exception aborts the whole batch. -/
def classifySeq (cfg : Config) (oracle : BatchOracle) (decode : JsonDecoder) :
    Nat → List (String × String) → Except RaisedErr (List IntentResult)
  | _, [] => .ok []
  | i, (history, message) :: rest =>
    match classify cfg (oracle i) decode message history with
    | .raised e => .error e
    | .ok r =>
      match classifySeq cfg oracle decode (i + 1) rest with
      | .error e => .error e
      | .ok rs => .ok (r :: rs)

/-- The parallel branch's slot-writing phase (lines 406-426): a pre-sized
`results` list of `None` slots, written once per index by the workers, in
whatever completion order the executor produces; `order` is that
completion order. -/
def parallelStep (cfg : Config) (oracle : BatchOracle) (decode : JsonDecoder)
    (messages : List (String × String)) (slots : List (Option IntentResult))
    (i : Nat) : List (Option IntentResult) :=
  slots.set i (some (worker_result cfg (oracle i) decode
    (messages.getD i ("", "")).1 (messages.getD i ("", "")).2))

def parallelExec (cfg : Config) (oracle : BatchOracle) (decode : JsonDecoder)
    (messages : List (String × String)) (order : List Nat) :
    List (Option IntentResult) :=
  order.foldl (parallelStep cfg oracle decode messages)
    (List.replicate messages.length none)

/-- Embedding of `classify_batch` (lines 386-429).  The sequential branch
is taken when `parallel` is false or there is exactly one message; the
parallel branch fills the index-addressed slots (every slot, in the
canonical order; any completion order gives the same slots, see
`parallelExec_order_irrelevant`) and then drops `None` slots
(`[res for res in results if res is not None]`).  `ThreadPoolExecutor`
raises `ValueError` when `max_workers` is not positive. -/
def classify_batch (cfg : Config) (oracle : BatchOracle) (decode : JsonDecoder)
    (messages : List (String × String)) (parallel : Bool) (max_workers : Nat) :
    Except RaisedErr (List IntentResult) :=
  if parallel = false ∨ messages.length = 1 then
    classifySeq cfg oracle decode 0 messages
  else if max_workers = 0 then
    .error (.valueError "max_workers must be greater than 0")
  else
    .ok ((parallelExec cfg oracle decode messages
      (List.range messages.length)).filterMap id)

/-- State-passing form of `classify`: the method body of `classify`
contains no assignment to any `self` field, so the explicit state-threading
translation returns the configuration unchanged alongside the trace; the
`attempts`/`last_error` retry state lives only in the loop's parameters
and is not part of the returned state. -/
def classifyStateful (st : Config) (oracle : GenOracle) (decode : JsonDecoder)
    (current_message conversation_history : String) : ClassifyTrace × Config :=
  (classifyRun st oracle decode current_message conversation_history, st)

/-- The three error kinds the design distinguishes when fallback is
disabled: parse-style (bad model output), transport-style (remote call
failed) and the distinct unknown kind. -/
inductive ErrKind where
  | parse
  | transport
  | unknown
deriving DecidableEq

/-- The kind of a raised error as the caller observes it: `ValueError` is
the parse-style error, the `API Error:`-tagged exception is the
transport-style error, and the generic exception is the unknown kind. -/
def raisedKind : RaisedErr → ErrKind
  | .valueError _ => .parse
  | .apiException _ => .transport
  | .genericException _ => .unknown

/-- The kind the source's raise mapping (lines 263-272) assigns to a caught
exception: parse-style for `JSONDecodeError`/`KeyError`, transport-style
exactly when the message mentions `API`/`api`, unknown otherwise. -/
def failureKind : PyErr → ErrKind
  | .jsonDecode _ => .parse
  | .keyError _ => .parse
  | e =>
    if pyIn "API" (errStr e) || pyIn "api" (pyLower (errStr e)) then .transport
    else .unknown

/-- Whether a caught attempt error is parse-style, i.e. one the source maps
to `ValueError` (`JSONDecodeError` or `KeyError`). -/
def isParseErr : PyErr → Bool
  | .jsonDecode _ => true
  | .keyError _ => true
  | _ => false

/-- A configuration with the source's defaults: `max_retries = 2`,
`fallback_enabled = True`, model `gemini-2.5-flash`. -/
def cfgFB : Config :=
  { max_retries := 2, fallback_enabled := true, model_name := "gemini-2.5-flash",
    system_prompt := "SYSTEM" }

/-- A fallback-disabled configuration with no retries. -/
def cfgNoFB : Config :=
  { max_retries := 0, fallback_enabled := false, model_name := "gemini-2.5-flash",
    system_prompt := "SYSTEM" }

/-- A remote model whose every call raises with message `boom`. -/
def failOracle : GenOracle := fun _ _ => .err "boom"

/-- A remote model whose every call fails with a transport-level message
that does not mention the API. -/
def timeoutOracle : GenOracle := fun _ _ => .err "connection timeout"

/-- A remote model that always answers with a fixed well-formed response. -/
def okOracle : GenOracle := fun _ _ => .ok "RESPONSE"

/-- A `json.loads` model that rejects every document. -/
def failDecoder : JsonDecoder := fun _ => .error "Expecting value"

/-- A `json.loads` model that accepts every document as the object
`\x7b"primary": "a", "secondary": "b"\x7d`. -/
def objDecoder : JsonDecoder :=
  fun _ => .ok (.obj [("primary", "a"), ("secondary", "b")])

/-- The literal JSON object of the specification's parser example (braces
written via their code points). -/
def objText : String :=
  "\x7b\"primary\": \"Logistics\", \"secondary\": \"order_status\"\x7d"

/-- A `json.loads` model for two concrete documents: the text `42` decodes
to a JSON number (a non-object value, as `json.loads("42")` returns an
`int`), and `objText` decodes to the corresponding two-key object; anything
else fails to decode. -/
def cexDecoder : JsonDecoder := fun s =>
  if s = "42" then .ok .nonObj
  else if s = objText then .ok (.obj [("primary", "Logistics"), ("secondary", "order_status")])
  else .error "Expecting value: line 1 column 1 (char 0)"

/-- A batch whose items all use the always-failing remote model. -/
def batchFailOracle : BatchOracle := fun _ => failOracle

/-- A two-item batch of `(history, message)` pairs, as `classify_batch`
receives them. -/
def msgsW : List (String × String) := [("", "where is my order"), ("", "thanks")]

/-! ## Lemmas about the retry loop -/

theorem classifyGo_all_fail (oracle : GenOracle) (decode : JsonDecoder) (prompt : String)
    (r : Nat) :
    ∀ (a : Nat) (le : Option PyErr) (rt : String),
      (∀ k, k < r → (attemptOnce oracle decode prompt (a + k)).isFail = true) →
      ∃ rt2, classifyGo oracle decode prompt a r le rt =
        .exhausted (if r = 0 then le else (attemptOnce oracle decode prompt (a + r - 1)).errOf)
          rt2 (a + r) := by
  induction r with
  | zero =>
    intro a le rt _
    exact ⟨rt, by simp [classifyGo]⟩
  | succ r ih =>
    intro a le rt hfail
    have h0 := hfail 0 (Nat.succ_pos r)
    rw [Nat.add_zero] at h0
    cases heq : attemptOnce oracle decode prompt a with
    | success res =>
      rw [heq] at h0
      simp [AttemptRes.isFail] at h0
    | failure e nt =>
      have hshift : ∀ k, k < r → (attemptOnce oracle decode prompt (a + 1 + k)).isFail = true := by
        intro k hk
        have h1 := hfail (k + 1) (by omega)
        rwa [show a + (k + 1) = a + 1 + k by omega] at h1
      obtain ⟨rt2, hrt2⟩ := ih (a + 1) (some e) (nt.getD rt) hshift
      refine ⟨rt2, ?_⟩
      rw [classifyGo, heq]
      show classifyGo oracle decode prompt (a + 1) r (some e) (nt.getD rt) = _
      rw [hrt2]
      rcases Nat.eq_zero_or_pos r with hr | hr
      · subst hr
        simp [heq, AttemptRes.errOf]
      · have h1 : a + 1 + r - 1 = a + (r + 1) - 1 := by omega
        have h2 : a + 1 + r = a + (r + 1) := by omega
        rw [h1, h2]
        have h3 : ¬ r = 0 := by omega
        simp [h3]

theorem classifyGo_shape (oracle : GenOracle) (decode : JsonDecoder) (prompt : String)
    (r : Nat) :
    ∀ a le rt, (∃ res n, classifyGo oracle decode prompt a r le rt = .success res n) ∨
      (∃ le2 rt2 n, classifyGo oracle decode prompt a r le rt = .exhausted le2 rt2 n) := by
  induction r with
  | zero => intro a le rt; exact .inr ⟨le, rt, a, by simp [classifyGo]⟩
  | succ r ih =>
    intro a le rt
    rw [classifyGo]
    cases heq : attemptOnce oracle decode prompt a with
    | success res => exact .inl ⟨res, a + 1, rfl⟩
    | failure e nt => exact ih (a + 1) (some e) (nt.getD rt)

/-! ## C2: with fallback enabled, classify never raises, and when every
attempt fails it performs exactly `max_retries + 1` attempts and returns
the fallback result built from the last error -/

/-- C2: for every configuration with fallback enabled, every remote oracle
and decoder and every request, `classify` returns (never raises); and when
all of the first `max_retries + 1` attempts fail, it performs exactly
`max_retries + 1` attempts and returns the fallback result built from the
last error's message. -/
theorem classify_fallback_never_raises (cfg : Config) (oracle : GenOracle)
    (decode : JsonDecoder) (current_message conversation_history : String)
    (hfb : cfg.fallback_enabled = true) :
    (∃ r, (classifyRun cfg oracle decode current_message conversation_history).result
        = .ok r) ∧
    (∀ e nt,
      (∀ i, i ≤ cfg.max_retries →
        (attemptOnce oracle decode
          (full_prompt cfg.system_prompt conversation_history current_message) i).isFail
          = true) →
      attemptOnce oracle decode
          (full_prompt cfg.system_prompt conversation_history current_message)
          cfg.max_retries = .failure e nt →
      (classifyRun cfg oracle decode current_message conversation_history).attempts
          = cfg.max_retries + 1 ∧
      (classifyRun cfg oracle decode current_message conversation_history).result
          = .ok (build_fallback_result (errStr e) current_message conversation_history)) := by
  constructor
  · rcases classifyGo_shape oracle decode
      (full_prompt cfg.system_prompt conversation_history current_message)
      (cfg.max_retries + 1) 0 none "" with ⟨res, n, hgo⟩ | ⟨le2, rt2, n, hgo⟩
    · exact ⟨res, by simp [classifyRun, hgo]⟩
    · refine ⟨build_fallback_result
        (match le2 with | some e => errStr e | none => "Unknown error")
        current_message conversation_history, ?_⟩
      simp [classifyRun, hgo, hfb]
      cases le2 <;> rfl
  · intro e nt hall hlast
    obtain ⟨rt2, hgo⟩ := classifyGo_all_fail oracle decode
      (full_prompt cfg.system_prompt conversation_history current_message)
      (cfg.max_retries + 1) 0 none "" (fun k hk => by
        rw [Nat.zero_add]
        exact hall k (by omega))
    rw [show (0 : Nat) + (cfg.max_retries + 1) = cfg.max_retries + 1 by omega] at hgo
    rw [if_neg (Nat.succ_ne_zero cfg.max_retries)] at hgo
    rw [Nat.add_sub_cancel, hlast] at hgo
    constructor
    · simp [classifyRun, hgo, hfb, AttemptRes.errOf]
    · simp [classifyRun, hgo, hfb, AttemptRes.errOf]

/-- C2 witness: with the default configuration, an always-failing remote
call and a rejecting decoder, `classify` performs exactly three attempts
and returns the fallback result. -/
theorem classify_fallback_never_raises_witness :
    cfgFB.fallback_enabled = true ∧
    (classifyRun cfgFB failOracle failDecoder "where is my order" "").attempts
      = cfgFB.max_retries + 1 ∧
    (classifyRun cfgFB failOracle failDecoder "where is my order" "").result
      = .ok (build_fallback_result (errStr (.apiError "boom")) "where is my order" "") :=
  ⟨rfl, (classify_fallback_never_raises cfgFB failOracle failDecoder
    "where is my order" "" rfl).2 (.apiError "boom") none (fun _ _ => rfl) rfl⟩

/-! ## C3: with fallback disabled, the raise after exhaustion -/

/-- C3 counterexample: the remote call fails on every attempt with the
message `connection timeout`; with fallback disabled the code raises the
generic unknown-kind exception, not the transport-style `API Error:` one
the claim requires for a failed remote call. -/
theorem classify_transport_unknown_kind_cex :
    (classifyRun cfgNoFB timeoutOracle failDecoder "where is my order" "").result
        = .raised (.genericException "Error: connection timeout") ∧
    raisedKind (.genericException "Error: connection timeout") = .unknown ∧
    ErrKind.unknown ≠ ErrKind.transport := by decide

/-- C3 (amended): with fallback disabled, when every attempt fails,
`classify` raises after exactly `max_retries + 1` attempts, and the raised
error's kind is parse-style for `JSONDecodeError`/`KeyError` failures,
transport-style exactly when the last failure's message contains `API` or
(case-insensitively) `api`, and the distinct unknown kind otherwise. -/
theorem classify_no_fallback_raise_kinds (cfg : Config) (oracle : GenOracle)
    (decode : JsonDecoder) (current_message conversation_history : String)
    (hfb : cfg.fallback_enabled = false) :
    ∀ e nt,
      (∀ i, i ≤ cfg.max_retries →
        (attemptOnce oracle decode
          (full_prompt cfg.system_prompt conversation_history current_message) i).isFail
          = true) →
      attemptOnce oracle decode
          (full_prompt cfg.system_prompt conversation_history current_message)
          cfg.max_retries = .failure e nt →
      (classifyRun cfg oracle decode current_message conversation_history).attempts
          = cfg.max_retries + 1 ∧
      ∃ re, (classifyRun cfg oracle decode current_message conversation_history).result
          = .raised re ∧ raisedKind re = failureKind e := by
  intro e nt hall hlast
  obtain ⟨rt2, hgo⟩ := classifyGo_all_fail oracle decode
    (full_prompt cfg.system_prompt conversation_history current_message)
    (cfg.max_retries + 1) 0 none "" (fun k hk => by
      rw [Nat.zero_add]
      exact hall k (by omega))
  rw [show (0 : Nat) + (cfg.max_retries + 1) = cfg.max_retries + 1 by omega] at hgo
  rw [if_neg (Nat.succ_ne_zero cfg.max_retries)] at hgo
  rw [Nat.add_sub_cancel, hlast] at hgo
  constructor
  · simp [classifyRun, hgo, hfb, AttemptRes.errOf]
  · refine ⟨raiseLastError (some e) rt2, by simp [classifyRun, hgo, hfb, AttemptRes.errOf], ?_⟩
    cases e with
    | jsonDecode m => simp [raiseLastError, raisedKind, failureKind]
    | keyError k => simp [raiseLastError, raisedKind, failureKind]
    | typeError =>
      cases hcond : pyIn "API" (errStr PyErr.typeError)
          || pyIn "api" (pyLower (errStr PyErr.typeError)) <;>
        simp [raiseLastError, failureKind, hcond, raisedKind]
    | apiError m =>
      cases hcond : pyIn "API" (errStr (PyErr.apiError m))
          || pyIn "api" (pyLower (errStr (PyErr.apiError m))) <;>
        simp [raiseLastError, failureKind, hcond, raisedKind]

/-- C3 witness: with retries disabled, fallback disabled and an
always-failing remote call, the classifier performs one attempt and raises
with the kind the raise mapping assigns to that failure. -/
theorem classify_no_fallback_raise_kinds_witness :
    cfgNoFB.fallback_enabled = false ∧
    (classifyRun cfgNoFB failOracle failDecoder "m" "").attempts = cfgNoFB.max_retries + 1 ∧
    ∃ re, (classifyRun cfgNoFB failOracle failDecoder "m" "").result = .raised re ∧
      raisedKind re = failureKind (.apiError "boom") := by
  refine ⟨rfl, ?_⟩
  exact classify_no_fallback_raise_kinds cfgNoFB failOracle failDecoder "m" "" rfl
    (.apiError "boom") none (fun _ _ => rfl) rfl

/-! ## C7: the fallback resolver is total and returns the tagged safe
default when no rule matches -/

/-- C7: for every error reason and request the fallback builder returns an
`IntentResult` whose reasoning states the upstream error (it is a total
function and takes no remote oracle at all); the gibberish message
`Xxxxxxxxxx` with empty history matches no rule and yields the safe default
`("Special Categories", "out_of_scope")`. -/
theorem fallback_resolver_total :
    ∀ error_reason current_message conversation_history : String,
      ((build_fallback_result error_reason current_message conversation_history).reasoning
          = some ("Rule-based fallback classification after error: " ++ error_reason) ∨
       (build_fallback_result error_reason current_message conversation_history).reasoning
          = some ("Fallback classification used due to error: " ++ error_reason)) ∧
      rule_based_intent "Xxxxxxxxxx" "" = none ∧
      build_fallback_result error_reason "Xxxxxxxxxx" ""
        = { primary := "Special Categories", secondary := "out_of_scope",
            confidence := none,
            reasoning := some ("Fallback classification used due to error: " ++ error_reason) } := by
  intro er m h
  refine ⟨?_, by decide, ?_⟩
  · rw [build_fallback_result]
    split
    · cases hr : rule_based_intent m h with
      | none => simp
      | some ps => cases ps with | mk p s => simp
    · simp
  · rw [build_fallback_result]
    rw [if_pos (by decide)]
    rw [show rule_based_intent "Xxxxxxxxxx" "" = none from by decide]

/-! ## C10: classify never mutates the configuration state -/

/-- C10: in the state-passing reading of `classify`, the configuration
after any call (successful, fallback or raising) is identical to the one
before it in all four fields, and re-running from the returned state
reproduces the call exactly; the retry state lives only in the loop's
parameters and is discarded. -/
theorem classify_preserves_config :
    ∀ (st : Config) (oracle : GenOracle) (decode : JsonDecoder)
      (current_message conversation_history : String),
      (classifyStateful st oracle decode current_message conversation_history).2.max_retries
          = st.max_retries ∧
      (classifyStateful st oracle decode current_message conversation_history).2.fallback_enabled
          = st.fallback_enabled ∧
      (classifyStateful st oracle decode current_message conversation_history).2.model_name
          = st.model_name ∧
      (classifyStateful st oracle decode current_message conversation_history).2.system_prompt
          = st.system_prompt ∧
      classifyStateful
          (classifyStateful st oracle decode current_message conversation_history).2
          oracle decode current_message conversation_history
        = classifyStateful st oracle decode current_message conversation_history :=
  fun _ _ _ _ _ => ⟨rfl, rfl, rfl, rfl, rfl⟩

/-! ## C6: the fallback rules are evaluated in a fixed order with
first-match-wins semantics -/

theorem find?_eq_of_first {α : Type} (p : α → Bool) :
    ∀ (l : List α) (i : Nat) (hi : i < l.length),
      (∀ j (hj : j < i), p (l.get ⟨j, lt_trans hj hi⟩) = false) →
      p (l.get ⟨i, hi⟩) = true →
      l.find? p = some (l.get ⟨i, hi⟩) := by
  intro l
  induction l with
  | nil => intro i hi; simp at hi
  | cons a tl ih =>
    intro i hi hbefore hmatch
    cases i with
    | zero => exact List.find?_cons_of_pos _ hmatch
    | succ j =>
      have h0 : p a = false := hbefore 0 (Nat.succ_pos j)
      rw [List.find?_cons_of_neg _ (by simp [h0])]
      exact ih j (by simpa using hi) (fun k hk => hbefore (k + 1) (by omega)) hmatch

/-- C6: the fallback resolver lower-cases the space-joined history and
message and evaluates `fallback_rules` in their fixed textual order with
first-match-wins semantics: whenever the rules before index `i` have no
keyword match and rule `i` does, the result is rule `i`'s label, whatever
the later rules do.  In particular `where is my order` resolves to
`("Logistics", "order_status")`, and it still does when the greeting rule
(index 4) also matches, as for `hi where is my order`. -/
theorem rule_based_first_match_wins :
    (∀ (current_message conversation_history : String) (i : Nat)
      (hi : i < fallback_rules.length),
      (∀ j (hj : j < i), ruleMatches (fallback_rules.get ⟨j, lt_trans hj hi⟩)
        (pyLower (conversation_history ++ " " ++ current_message)) = false) →
      ruleMatches (fallback_rules.get ⟨i, hi⟩)
        (pyLower (conversation_history ++ " " ++ current_message)) = true →
      rule_based_intent current_message conversation_history
        = some (fallback_rules.get ⟨i, hi⟩).1) ∧
    rule_based_intent "where is my order" "" = some ("Logistics", "order_status") ∧
    ruleMatches (fallback_rules.get ⟨4, by decide⟩)
      (pyLower ("" ++ " " ++ "hi where is my order")) = true ∧
    rule_based_intent "hi where is my order" "" = some ("Logistics", "order_status") := by
  refine ⟨?_, by decide, by decide, by decide⟩
  intro m h i hi hb hm
  simp only [rule_based_intent]
  rw [find?_eq_of_first _ _ i hi hb hm]
  rfl

/-- C6 witness: the first rule matches `where is my order` and the
resolver returns that rule's label. -/
theorem rule_based_first_match_wins_witness :
    ruleMatches (fallback_rules.get ⟨0, by decide⟩)
      (pyLower ("" ++ " " ++ "where is my order")) = true ∧
    rule_based_intent "where is my order" ""
      = some (fallback_rules.get ⟨0, by decide⟩).1 :=
  ⟨by decide,
   rule_based_first_match_wins.1 "where is my order" "" 0 (by decide)
     (fun j hj => absurd hj (by omega)) (by decide)⟩

/-! ## Lemmas: every produced result has an absent confidence -/

theorem parse_step_fields {decode : JsonDecoder} {t : String} {r : IntentResult}
    (h : parse_step decode t = .ok r) :
    ∃ es, parse_json_response decode t = .ok (.obj es) ∧
      es.lookup "primary" = some r.primary ∧
      es.lookup "secondary" = some r.secondary ∧
      r.confidence = none ∧
      r.reasoning = some ((es.lookup "reasoning").getD "") := by
  rw [parse_step] at h
  split at h
  · exact absurd h (by simp)
  · exact absurd h (by simp)
  · rename_i es hd2
    split at h
    · exact absurd h (by simp)
    · rename_i p hp
      split at h
      · exact absurd h (by simp)
      · rename_i s hs
        simp only [Except.ok.injEq] at h
        exact ⟨es, hd2, by rw [hp, ← h], by rw [hs, ← h], by rw [← h], by rw [← h]⟩

theorem classifyGo_success_fields (oracle : GenOracle) (decode : JsonDecoder)
    (prompt : String) (r : Nat) :
    ∀ a le rt res n, classifyGo oracle decode prompt a r le rt = .success res n →
      res.confidence = none := by
  induction r with
  | zero => intro a le rt res n h; simp [classifyGo] at h
  | succ r ih =>
    intro a le rt res n h
    rw [classifyGo] at h
    cases heq : attemptOnce oracle decode prompt a with
    | success res2 =>
      rw [heq] at h
      simp only [LoopOut.success.injEq] at h
      rw [attemptOnce] at heq
      split at heq
      · exact absurd heq (by simp)
      · split at heq
        · rename_i r2 hp
          simp only [AttemptRes.success.injEq] at heq
          obtain ⟨_, _, _, _, hc, _⟩ := parse_step_fields hp
          rw [← h.1, ← heq]
          exact hc
        · exact absurd heq (by simp)
    | failure e nt =>
      rw [heq] at h
      exact ih (a + 1) (some e) (nt.getD rt) res n h

theorem build_fallback_confidence (er m h : String) :
    (build_fallback_result er m h).confidence = none := by
  rw [build_fallback_result]
  split
  · cases hr : rule_based_intent m h with
    | none => simp
    | some ps => cases ps with | mk p s => simp
  · simp

theorem classify_ok_confidence {cfg : Config} {oracle : GenOracle} {decode : JsonDecoder}
    {m h : String} {r : IntentResult}
    (hr : classify cfg oracle decode m h = .ok r) : r.confidence = none := by
  rw [classify, classifyRun] at hr
  cases hgo : classifyGo oracle decode (full_prompt cfg.system_prompt h m) 0
      (cfg.max_retries + 1) none "" with
  | success res n =>
    rw [hgo] at hr
    dsimp only at hr
    simp only [ClassifyResult.ok.injEq] at hr
    rw [← hr]
    exact classifyGo_success_fields oracle decode _ _ 0 none "" res n hgo
  | exhausted le rt n =>
    rw [hgo] at hr
    dsimp only at hr
    by_cases hfb : cfg.fallback_enabled = true
    · rw [if_pos hfb] at hr
      simp only [ClassifyResult.ok.injEq] at hr
      rw [← hr]
      exact build_fallback_confidence _ m h
    · rw [if_neg hfb] at hr
      simp at hr

/-! ## Lemmas about the batch orchestrator -/

theorem classify_ok_of_fallback (cfg : Config) (oracle : GenOracle) (decode : JsonDecoder)
    (m h : String) (hfb : cfg.fallback_enabled = true) :
    ∃ r, classify cfg oracle decode m h = .ok r := by
  rw [classify, classifyRun]
  rcases classifyGo_shape oracle decode (full_prompt cfg.system_prompt h m)
    (cfg.max_retries + 1) 0 none "" with ⟨res, n, hgo⟩ | ⟨le2, rt2, n, hgo⟩
  · exact ⟨res, by rw [hgo]⟩
  · cases le2 with
    | none =>
      refine ⟨build_fallback_result "Unknown error" m h, ?_⟩
      rw [hgo]
      dsimp only
      rw [if_pos hfb]
    | some e =>
      refine ⟨build_fallback_result (errStr e) m h, ?_⟩
      rw [hgo]
      dsimp only
      rw [if_pos hfb]

theorem worker_result_of_ok {cfg : Config} {oracle_i : GenOracle} {decode : JsonDecoder}
    {history message : String} {r : IntentResult}
    (h : classify cfg oracle_i decode message history = .ok r) :
    worker_result cfg oracle_i decode history message = r := by
  rw [worker_result, h]

theorem worker_result_of_raised {cfg : Config} {oracle_i : GenOracle} {decode : JsonDecoder}
    {history message : String} {e : RaisedErr}
    (h : classify cfg oracle_i decode message history = .raised e) :
    worker_result cfg oracle_i decode history message
      = build_fallback_result (raisedStr e) message history := by
  rw [worker_result, h]

theorem classifySeq_ok (cfg : Config) (oracle : BatchOracle) (decode : JsonDecoder) :
    ∀ (msgs : List (String × String)) (i : Nat) (rs : List IntentResult),
      classifySeq cfg oracle decode i msgs = .ok rs →
      rs.length = msgs.length ∧
      ∀ j (hj : j < msgs.length),
        rs[j]? = some (worker_result cfg (oracle (i + j)) decode
          (msgs.get ⟨j, hj⟩).1 (msgs.get ⟨j, hj⟩).2) := by
  intro msgs
  induction msgs with
  | nil =>
    intro i rs h
    rw [classifySeq] at h
    simp only [Except.ok.injEq] at h
    subst h
    exact ⟨rfl, fun j hj => absurd hj (by simp)⟩
  | cons hm tl ih =>
    obtain ⟨history, message⟩ := hm
    intro i rs h
    rw [classifySeq] at h
    cases hc : classify cfg (oracle i) decode message history with
    | raised e => rw [hc] at h; simp at h
    | ok r =>
      rw [hc] at h
      dsimp only at h
      cases hrec : classifySeq cfg oracle decode (i + 1) tl with
      | error e => rw [hrec] at h; simp at h
      | ok rs2 =>
        rw [hrec] at h
        simp only [Except.ok.injEq] at h
        obtain ⟨hlen, hpt⟩ := ih (i + 1) rs2 hrec
        refine ⟨by rw [← h]; simp [hlen], ?_⟩
        intro j hj
        cases j with
        | zero =>
          rw [← h]
          simp only [List.getElem?_cons_zero, Nat.add_zero]
          exact congrArg some (worker_result_of_ok hc).symm
        | succ k =>
          rw [← h]
          simp only [List.getElem?_cons_succ]
          have hk : k < tl.length := by simpa using hj
          rw [hpt k hk]
          rw [show i + 1 + k = i + (k + 1) by omega]
          rfl

theorem classifySeq_ok_of_fallback (cfg : Config) (oracle : BatchOracle)
    (decode : JsonDecoder) (hfb : cfg.fallback_enabled = true) :
    ∀ (msgs : List (String × String)) (i : Nat),
      ∃ rs, classifySeq cfg oracle decode i msgs = .ok rs := by
  intro msgs
  induction msgs with
  | nil => intro i; exact ⟨[], rfl⟩
  | cons hm tl ih =>
    obtain ⟨history, message⟩ := hm
    intro i
    obtain ⟨r, hr⟩ := classify_ok_of_fallback cfg (oracle i) decode message history hfb
    obtain ⟨rs2, hrs2⟩ := ih (i + 1)
    refine ⟨r :: rs2, ?_⟩
    rw [classifySeq, hr]
    dsimp only
    rw [hrs2]

theorem parallelFold_length (cfg : Config) (oracle : BatchOracle) (decode : JsonDecoder)
    (messages : List (String × String)) :
    ∀ (order : List Nat) (slots : List (Option IntentResult)),
      (order.foldl (parallelStep cfg oracle decode messages) slots).length
        = slots.length := by
  intro order
  induction order with
  | nil => intro slots; rfl
  | cons i rest ih =>
    intro slots
    rw [List.foldl_cons, ih]
    simp [parallelStep]

theorem parallelFold_getElem (cfg : Config) (oracle : BatchOracle) (decode : JsonDecoder)
    (messages : List (String × String)) :
    ∀ (order : List Nat), order.Nodup →
      ∀ (slots : List (Option IntentResult)) (j : Nat),
      (order.foldl (parallelStep cfg oracle decode messages) slots)[j]?
        = if j ∈ order ∧ j < slots.length then
            some (some (worker_result cfg (oracle j) decode
              (messages.getD j ("", "")).1 (messages.getD j ("", "")).2))
          else slots[j]? := by
  intro order
  induction order with
  | nil =>
    intro _ slots j
    simp
  | cons i rest ih =>
    intro hnd slots j
    have hnd2 := List.nodup_cons.mp hnd
    rw [List.foldl_cons, ih hnd2.2]
    have hlen : (parallelStep cfg oracle decode messages slots i).length
        = slots.length := by simp [parallelStep]
    rw [hlen]
    by_cases hjlen : j < slots.length
    · by_cases hjr : j ∈ rest
      · rw [if_pos ⟨hjr, hjlen⟩, if_pos ⟨List.mem_cons_of_mem _ hjr, hjlen⟩]
      · rw [if_neg (by tauto)]
        by_cases hji : j = i
        · subst hji
          rw [show parallelStep cfg oracle decode messages slots j
              = slots.set j (some (worker_result cfg (oracle j) decode
                (messages.getD j ("", "")).1 (messages.getD j ("", "")).2)) from rfl]
          rw [List.getElem?_set_self hjlen]
          rw [if_pos ⟨List.mem_cons_self _ _, hjlen⟩]
        · rw [show parallelStep cfg oracle decode messages slots i
              = slots.set i (some (worker_result cfg (oracle i) decode
                (messages.getD i ("", "")).1 (messages.getD i ("", "")).2)) from rfl]
          rw [List.getElem?_set_ne (fun hh => hji hh.symm)]
          rw [if_neg ?_]
          intro hc
          rcases List.mem_cons.mp hc.1 with hh | hh
          · exact hji hh
          · exact hjr hh
    · rw [if_neg (by tauto), if_neg (by tauto)]
      have h1 : (parallelStep cfg oracle decode messages slots i)[j]? = none := by
        apply List.getElem?_eq_none_iff.mpr
        simp only [parallelStep, List.length_set]
        omega
      have h2 : slots[j]? = none := by
        apply List.getElem?_eq_none_iff.mpr
        omega
      rw [h1, h2]

theorem parallelExec_eq_map (cfg : Config) (oracle : BatchOracle) (decode : JsonDecoder)
    (messages : List (String × String)) (order : List Nat)
    (hperm : order.Perm (List.range messages.length)) :
    parallelExec cfg oracle decode messages order
      = (List.range messages.length).map (fun j =>
          some (worker_result cfg (oracle j) decode
            (messages.getD j ("", "")).1 (messages.getD j ("", "")).2)) := by
  have hnd : order.Nodup := hperm.symm.nodup (List.nodup_range _)
  apply List.ext_getElem?_iff.mpr
  intro j
  rw [parallelExec, parallelFold_getElem cfg oracle decode messages order hnd]
  rw [List.length_replicate]
  by_cases hj : j < messages.length
  · have hmem : j ∈ order := hperm.mem_iff.mpr (List.mem_range.mpr hj)
    rw [if_pos ⟨hmem, hj⟩, List.getElem?_map, List.getElem?_range hj]
    rfl
  · rw [if_neg (by tauto)]
    have h1 : (List.replicate messages.length (none : Option IntentResult))[j]? = none := by
      apply List.getElem?_eq_none_iff.mpr
      simp
      omega
    have h2 : ((List.range messages.length).map (fun j =>
        some (worker_result cfg (oracle j) decode
          (messages.getD j ("", "")).1 (messages.getD j ("", "")).2)))[j]? = none := by
      apply List.getElem?_eq_none_iff.mpr
      simp
      omega
    rw [h1, h2]

theorem parallelExec_order_irrelevant (cfg : Config) (oracle : BatchOracle)
    (decode : JsonDecoder) (messages : List (String × String)) (order : List Nat)
    (hperm : order.Perm (List.range messages.length)) :
    parallelExec cfg oracle decode messages order
      = parallelExec cfg oracle decode messages (List.range messages.length) := by
  rw [parallelExec_eq_map cfg oracle decode messages order hperm,
    parallelExec_eq_map cfg oracle decode messages (List.range messages.length)
      (List.Perm.refl _)]

theorem parallelExec_filterMap (cfg : Config) (oracle : BatchOracle) (decode : JsonDecoder)
    (messages : List (String × String)) :
    (parallelExec cfg oracle decode messages (List.range messages.length)).filterMap id
      = (List.range messages.length).map (fun j => worker_result cfg (oracle j) decode
          (messages.getD j ("", "")).1 (messages.getD j ("", "")).2) := by
  rw [parallelExec_eq_map cfg oracle decode messages (List.range messages.length)
    (List.Perm.refl _)]
  rw [List.filterMap_map]
  exact List.filterMap_eq_map_iff_forall_eq_some.mpr (fun x _ => rfl)

theorem classify_batch_ok_spec (cfg : Config) (oracle : BatchOracle) (decode : JsonDecoder)
    (messages : List (String × String)) (parallel : Bool) (max_workers : Nat) :
    ∀ rs, classify_batch cfg oracle decode messages parallel max_workers = .ok rs →
      rs.length = messages.length ∧
      ∀ j (hj : j < messages.length),
        rs[j]? = some (worker_result cfg (oracle j) decode
          (messages.get ⟨j, hj⟩).1 (messages.get ⟨j, hj⟩).2) := by
  intro rs h
  rw [classify_batch] at h
  by_cases hbr : parallel = false ∨ messages.length = 1
  · rw [if_pos hbr] at h
    obtain ⟨hlen, hpt⟩ := classifySeq_ok cfg oracle decode messages 0 rs h
    refine ⟨hlen, ?_⟩
    intro j hj
    rw [hpt j hj, Nat.zero_add]
  · rw [if_neg hbr] at h
    by_cases hmw0 : max_workers = 0
    · rw [if_pos hmw0] at h
      exact absurd h (by simp)
    · rw [if_neg hmw0] at h
      simp only [Except.ok.injEq] at h
      rw [← h, parallelExec_filterMap]
      constructor
      · simp
      · intro j hj
        rw [List.getElem?_map, List.getElem?_range hj]
        dsimp only [Option.map]
        rw [List.getD_eq_getElem messages ("", "") hj]
        rfl

theorem classify_batch_ok_of_fallback (cfg : Config) (oracle : BatchOracle)
    (decode : JsonDecoder) (messages : List (String × String)) (parallel : Bool)
    (max_workers : Nat) (hmw : 1 ≤ max_workers) (hfb : cfg.fallback_enabled = true) :
    ∃ rs, classify_batch cfg oracle decode messages parallel max_workers = .ok rs := by
  rw [classify_batch]
  by_cases hbr : parallel = false ∨ messages.length = 1
  · rw [if_pos hbr]
    exact classifySeq_ok_of_fallback cfg oracle decode hfb messages 0
  · rw [if_neg hbr, if_neg (by omega)]
    exact ⟨_, rfl⟩

theorem classify_batch_parallel_ok (cfg : Config) (oracle : BatchOracle)
    (decode : JsonDecoder) (messages : List (String × String)) (max_workers : Nat)
    (hmw : 1 ≤ max_workers) (hn : messages.length ≠ 1) :
    classify_batch cfg oracle decode messages true max_workers
      = .ok ((List.range messages.length).map (fun j => worker_result cfg (oracle j) decode
          (messages.getD j ("", "")).1 (messages.getD j ("", "")).2)) := by
  rw [classify_batch]
  rw [if_neg (by simp [hn])]
  rw [if_neg (by omega)]
  rw [parallelExec_filterMap]

/-! ## C1: the batch preserves length and input order in both modes -/

/-- C1: for every batch of requests, in sequential and parallel mode alike
(with a positive worker count), whenever `classify_batch` returns a list it
has the length of the input and its `j`-th entry is the classification
outcome of the `j`-th request (the per-item result of `classify`, degraded
to the tagged fallback when that item raises); it always returns when
fallback is enabled; and the parallel slot-writing produces the same slots
under every completion order. -/
theorem classify_batch_preserves_order :
    ∀ (cfg : Config) (oracle : BatchOracle) (decode : JsonDecoder)
      (messages : List (String × String)) (parallel : Bool) (max_workers : Nat),
      1 ≤ max_workers →
      ((cfg.fallback_enabled = true →
        ∃ rs, classify_batch cfg oracle decode messages parallel max_workers = .ok rs) ∧
       (∀ rs, classify_batch cfg oracle decode messages parallel max_workers = .ok rs →
        rs.length = messages.length ∧
        ∀ j (hj : j < messages.length),
          rs[j]? = some (worker_result cfg (oracle j) decode
            (messages.get ⟨j, hj⟩).1 (messages.get ⟨j, hj⟩).2)) ∧
       (∀ order, order.Perm (List.range messages.length) →
        parallelExec cfg oracle decode messages order
          = parallelExec cfg oracle decode messages (List.range messages.length))) := by
  intro cfg oracle decode messages parallel max_workers hmw
  exact ⟨fun hfb => classify_batch_ok_of_fallback cfg oracle decode messages parallel
      max_workers hmw hfb,
    classify_batch_ok_spec cfg oracle decode messages parallel max_workers,
    fun order hperm => parallelExec_order_irrelevant cfg oracle decode messages order hperm⟩

/-- C1 witness: a parallel two-item batch over an always-failing remote
returns a list of length two. -/
theorem classify_batch_preserves_order_witness :
    (1 : Nat) ≤ 4 ∧
    ∃ rs, classify_batch cfgFB batchFailOracle failDecoder msgsW true 4 = .ok rs ∧
      rs.length = msgsW.length := by
  refine ⟨by decide, ?_⟩
  obtain ⟨rs, hrs⟩ := (classify_batch_preserves_order cfgFB batchFailOracle failDecoder
    msgsW true 4 (by decide)).1 rfl
  exact ⟨rs, hrs, ((classify_batch_preserves_order cfgFB batchFailOracle failDecoder
    msgsW true 4 (by decide)).2.1 rs hrs).1⟩

/-! ## C8: a failing item degrades to a tagged fallback result and leaves
its siblings untouched -/

/-- C8: in a parallel batch (and, with fallback enabled, in a sequential
one) a persisting error on item `i` never aborts the batch: the batch still
returns a full-length list, item `i` degrades to a fallback result tagged
with the original failure's message, and every sibling's result is exactly
what it is under the unperturbed oracle family. -/
theorem batch_error_isolation :
    ∀ (cfg : Config) (oracle oracle2 : BatchOracle) (decode : JsonDecoder)
      (messages : List (String × String)) (max_workers i : Nat),
      1 ≤ max_workers →
      (∀ k, k ≠ i → oracle2 k = oracle k) →
      ((messages.length ≠ 1 →
        ∃ rs2, classify_batch cfg oracle2 decode messages true max_workers = .ok rs2 ∧
          rs2.length = messages.length) ∧
       (∀ rs rs2,
         classify_batch cfg oracle decode messages true max_workers = .ok rs →
         classify_batch cfg oracle2 decode messages true max_workers = .ok rs2 →
         ∀ j, j < messages.length → j ≠ i → rs[j]? = rs2[j]?) ∧
       (∀ e rs2, messages.length ≠ 1 →
         classify cfg (oracle2 i) decode (messages.getD i ("", "")).2
           (messages.getD i ("", "")).1 = .raised e →
         classify_batch cfg oracle2 decode messages true max_workers = .ok rs2 →
         i < messages.length →
         rs2[i]? = some (build_fallback_result (raisedStr e)
           (messages.getD i ("", "")).2 (messages.getD i ("", "")).1)) ∧
       (cfg.fallback_enabled = true →
        ∃ rs2, classify_batch cfg oracle2 decode messages false max_workers = .ok rs2 ∧
          rs2.length = messages.length ∧
          ∀ j (hj : j < messages.length), j ≠ i →
            rs2[j]? = some (worker_result cfg (oracle j) decode
              (messages.get ⟨j, hj⟩).1 (messages.get ⟨j, hj⟩).2))) := by
  intro cfg oracle oracle2 decode messages max_workers i hmw hagree
  refine ⟨?_, ?_, ?_, ?_⟩
  · intro hn
    rw [classify_batch_parallel_ok cfg oracle2 decode messages max_workers hmw hn]
    exact ⟨_, rfl, by simp⟩
  · intro rs rs2 h1 h2 j hj hji
    obtain ⟨_, hpt1⟩ := classify_batch_ok_spec cfg oracle decode messages true max_workers rs h1
    obtain ⟨_, hpt2⟩ := classify_batch_ok_spec cfg oracle2 decode messages true max_workers rs2 h2
    rw [hpt1 j hj, hpt2 j hj, hagree j hji]
  · intro e rs2 hn hraised h2 hi
    obtain ⟨_, hpt2⟩ := classify_batch_ok_spec cfg oracle2 decode messages true max_workers rs2 h2
    rw [hpt2 i hi]
    rw [List.getD_eq_getElem messages ("", "") hi] at hraised ⊢
    exact congrArg some (worker_result_of_raised hraised)
  · intro hfb
    obtain ⟨rs2, hrs2⟩ := classifySeq_ok_of_fallback cfg oracle2 decode hfb messages 0
    have hbatch : classify_batch cfg oracle2 decode messages false max_workers = .ok rs2 := by
      rw [classify_batch, if_pos (Or.inl rfl)]
      exact hrs2
    obtain ⟨hlen, hpt⟩ := classify_batch_ok_spec cfg oracle2 decode messages false
      max_workers rs2 hbatch
    refine ⟨rs2, hbatch, hlen, ?_⟩
    intro j hj hji
    rw [hpt j hj, hagree j hji]

/-- C8 witness: in a two-item parallel batch where item 0's remote calls
always fail while item 1 is untouched, the batch returns both items and
item 1's result equals its result under the unperturbed oracle. -/
theorem batch_error_isolation_witness :
    (1 : Nat) ≤ 4 ∧
    ∃ rs2, classify_batch cfgFB batchFailOracle failDecoder msgsW true 4 = .ok rs2 ∧
      rs2.length = msgsW.length := by
  refine ⟨by decide, ?_⟩
  exact (batch_error_isolation cfgFB batchFailOracle batchFailOracle failDecoder msgsW 4 0
    (by decide) (fun k _ => rfl)).1 (by decide)

/-! ## C9: no code path populates the confidence field -/

theorem worker_result_confidence (cfg : Config) (oracle_i : GenOracle)
    (decode : JsonDecoder) (history message : String) :
    (worker_result cfg oracle_i decode history message).confidence = none := by
  cases hc : classify cfg oracle_i decode message history with
  | ok r =>
    rw [worker_result, hc]
    exact classify_ok_confidence hc
  | raised e =>
    rw [worker_result, hc]
    exact build_fallback_confidence _ _ _

/-- C9: every `IntentResult` any code path produces — from the fallback
builder, from a successful `classify`, or inside a `classify_batch` result
list — has `confidence = none`: the declared optional confidence field is
never populated. -/
theorem results_confidence_none :
    ∀ (cfg : Config) (oracle : GenOracle) (decode : JsonDecoder)
      (current_message conversation_history error_reason : String)
      (boracle : BatchOracle) (messages : List (String × String))
      (parallel : Bool) (max_workers : Nat),
      ((build_fallback_result error_reason current_message conversation_history).confidence
          = none ∧
       (∀ r, classify cfg oracle decode current_message conversation_history = .ok r →
          r.confidence = none) ∧
       (∀ rs, classify_batch cfg boracle decode messages parallel max_workers = .ok rs →
          ∀ r, r ∈ rs → r.confidence = none)) := by
  intro cfg oracle decode m h er boracle messages parallel mw
  refine ⟨build_fallback_confidence er m h, fun r hr => classify_ok_confidence hr, ?_⟩
  intro rs hrs r hmem
  obtain ⟨j, hj⟩ := List.mem_iff_getElem?.mp hmem
  obtain ⟨hlen, hpt⟩ := classify_batch_ok_spec cfg boracle decode messages parallel mw rs hrs
  by_cases hjl : j < messages.length
  · have hj2 := hpt j hjl
    rw [hj] at hj2
    simp only [Option.some.injEq] at hj2
    rw [hj2]
    exact worker_result_confidence _ _ _ _ _
  · rw [List.getElem?_eq_none_iff.mpr (by omega)] at hj
    exact absurd hj (by simp)

/-- C9 witness: a concrete successful classification and a concrete
fallback result both carry an absent confidence. -/
theorem results_confidence_none_witness :
    (build_fallback_result "boom" "m" "h").confidence = none ∧
    classify cfgFB okOracle objDecoder "m" "h"
      = .ok { primary := "a", secondary := "b", confidence := none, reasoning := some "" } ∧
    IntentResult.confidence
      { primary := "a", secondary := "b", confidence := none, reasoning := some "" } = none :=
  ⟨(results_confidence_none cfgFB okOracle objDecoder "m" "h" "boom"
      batchFailOracle msgsW true 4).1,
   by decide,
   (results_confidence_none cfgFB okOracle objDecoder "m" "h" "boom"
      batchFailOracle msgsW true 4).2.1
     { primary := "a", secondary := "b", confidence := none, reasoning := some "" }
     (by decide)⟩

/-! ## Lemmas about fences, substring search and stripping -/

theorem fence_chars : fence = [backtick, backtick, backtick] := by decide

theorem fenceJson_chars :
    fenceJson = [backtick, backtick, backtick, 'j', 's', 'o', 'n'] := by decide

theorem pyInL_isSome_afterFirst (sep : List Char) :
    ∀ l, pyInL sep l = (afterFirst sep l).isSome := by
  intro l
  induction l with
  | nil => cases sep <;> simp [pyInL, afterFirst, List.isPrefixOf, List.isEmpty]
  | cons c rest ih =>
    cases hp : sep.isPrefixOf (c :: rest) <;> simp [pyInL, afterFirst, hp, ih]

theorem isPrefixOf_bt_cons_false {sep : List Char} (hsep : sep.head? = some backtick)
    {c : Char} (hc : c ≠ backtick) (l : List Char) :
    sep.isPrefixOf (c :: l) = false := by
  cases sep with
  | nil => simp at hsep
  | cons s0 stl =>
    simp only [List.head?_cons, Option.some.injEq] at hsep
    subst hsep
    simp [List.isPrefixOf, beq_false_of_ne (Ne.symm hc)]

theorem afterFirst_append_bt {sep : List Char} (hsep : sep.head? = some backtick) :
    ∀ {a : List Char}, (∀ c ∈ a, c ≠ backtick) → ∀ b,
      afterFirst sep (a ++ b) = afterFirst sep b := by
  intro a
  induction a with
  | nil => intro _ b; rfl
  | cons c a2 ih =>
    intro ha b
    have hc : c ≠ backtick := ha c (by simp)
    rw [List.cons_append, afterFirst, isPrefixOf_bt_cons_false hsep hc]
    simp only [Bool.false_eq_true, if_false]
    exact ih (fun x hx => ha x (by simp [hx])) b

theorem beforeFirst_append_bt {sep : List Char} (hsep : sep.head? = some backtick) :
    ∀ {a : List Char}, (∀ c ∈ a, c ≠ backtick) → ∀ b,
      beforeFirst sep (a ++ b) = a ++ beforeFirst sep b := by
  intro a
  induction a with
  | nil => intro _ b; rfl
  | cons c a2 ih =>
    intro ha b
    have hc : c ≠ backtick := ha c (by simp)
    rw [List.cons_append, beforeFirst, isPrefixOf_bt_cons_false hsep hc]
    simp only [Bool.false_eq_true, if_false, List.cons_append]
    rw [ih (fun x hx => ha x (by simp [hx])) b]

theorem afterFirst_append_self (sep x : List Char) :
    afterFirst sep (sep ++ x) = some x := by
  cases sep with
  | nil =>
    cases x with
    | nil => simp [afterFirst, List.isPrefixOf]
    | cons c rest => simp [afterFirst, List.isPrefixOf]
  | cons s0 stl =>
    have hp : (s0 :: stl).isPrefixOf ((s0 :: stl) ++ x) = true :=
      List.isPrefixOf_iff_prefix.mpr (List.prefix_append _ _)
    rw [List.cons_append] at hp ⊢
    rw [afterFirst, hp]
    simp [List.drop_left]

theorem beforeFirst_append_self {s0 : Char} {stl : List Char} (x : List Char) :
    beforeFirst (s0 :: stl) ((s0 :: stl) ++ x) = [] := by
  have hp : (s0 :: stl).isPrefixOf ((s0 :: stl) ++ x) = true :=
    List.isPrefixOf_iff_prefix.mpr (List.prefix_append _ _)
  rw [List.cons_append] at hp ⊢
  rw [beforeFirst, hp]
  simp

theorem pyInL_false_of_nobt {sep : List Char} (hsep : sep.head? = some backtick) :
    ∀ l, (∀ c ∈ l, c ≠ backtick) → pyInL sep l = false := by
  intro l
  induction l with
  | nil =>
    intro _
    cases sep with
    | nil => simp at hsep
    | cons s0 stl => simp [pyInL, List.isEmpty]
  | cons c rest ih =>
    intro h
    rw [pyInL, isPrefixOf_bt_cons_false hsep (h c (by simp))]
    simp only [Bool.false_or]
    exact ih (fun x hx => h x (by simp [hx]))

theorem beforeFirst_eq_self_of_not_in {sep : List Char} :
    ∀ l, pyInL sep l = false → beforeFirst sep l = l := by
  intro l
  induction l with
  | nil => intro _; rfl
  | cons c rest ih =>
    intro h
    rw [pyInL] at h
    simp only [Bool.or_eq_false_iff] at h
    rw [beforeFirst, h.1]
    simp only [Bool.false_eq_true, if_false]
    rw [ih h.2]

theorem pyInL_mono {sep1 sep2 : List Char} (hp : sep1.isPrefixOf sep2 = true) :
    ∀ l, pyInL sep2 l = true → pyInL sep1 l = true := by
  intro l
  induction l with
  | nil =>
    intro h
    rw [pyInL, List.isEmpty_iff] at h
    subst h
    rw [pyInL, List.isEmpty_iff]
    have := List.isPrefixOf_iff_prefix.mp hp
    simpa using List.prefix_nil.mp this
  | cons c rest ih =>
    intro h
    rw [pyInL] at h ⊢
    rcases Bool.or_eq_true_iff.mp h with h1 | h1
    · have := (List.isPrefixOf_iff_prefix.mp hp).trans (List.isPrefixOf_iff_prefix.mp h1)
      simp [List.isPrefixOf_iff_prefix.mpr this]
    · simp [ih h1]

theorem pyStripL_cons_space {c : Char} (hc : pySpace c = true) (l : List Char) :
    pyStripL (c :: l) = pyStripL l := by
  rw [pyStripL, pyStripL, List.dropWhile_cons_of_pos hc]

theorem pyStripL_append_space {c : Char} (hc : pySpace c = true) (l : List Char) :
    pyStripL (l ++ [c]) = pyStripL l := by
  rw [pyStripL, pyStripL, List.dropWhile_append]
  split
  · next hemp =>
    have h0 : l.dropWhile pySpace = [] := List.isEmpty_iff.mp hemp
    rw [h0]
    simp [List.dropWhile_cons_of_pos hc]
  · next hemp =>
    rw [List.reverse_append]
    simp only [List.reverse_cons, List.reverse_nil, List.nil_append, List.singleton_append]
    rw [List.dropWhile_cons_of_pos hc]

theorem beforeFirst_fence_block (r : List Char) (hr : r.head? ≠ some backtick) :
    beforeFirst fence (beforeFirst fenceJson (fence ++ r)) = [] := by
  have hfr : fence ++ r = backtick :: backtick :: backtick :: r := by
    rw [fence_chars]; rfl
  rw [hfr]
  by_cases hjp : fenceJson.isPrefixOf (backtick :: backtick :: backtick :: r) = true
  · have hinner : beforeFirst fenceJson (backtick :: backtick :: backtick :: r) = [] := by
      rw [beforeFirst, hjp]
      simp
    rw [hinner]
    rfl
  · have h2 : fenceJson.isPrefixOf (backtick :: backtick :: r) = false := by
      cases r with
      | nil => decide
      | cons c rtl =>
        have hc : c ≠ backtick := by
          intro hcontra
          exact hr (by simp [hcontra])
        rw [fenceJson_chars]
        simp [List.isPrefixOf, beq_false_of_ne (Ne.symm hc)]
    have h3 : fenceJson.isPrefixOf (backtick :: r) = false := by
      cases r with
      | nil => decide
      | cons c rtl =>
        have hc : c ≠ backtick := by
          intro hcontra
          exact hr (by simp [hcontra])
        rw [fenceJson_chars]
        simp [List.isPrefixOf, beq_false_of_ne (Ne.symm hc)]
    have hinner : beforeFirst fenceJson (backtick :: backtick :: backtick :: r)
        = backtick :: backtick :: backtick :: beforeFirst fenceJson r := by
      rw [beforeFirst]
      rw [show fenceJson.isPrefixOf (backtick :: backtick :: backtick :: r) = false from
        Bool.not_eq_true _ ▸ Bool.of_not_eq_true hjp]
      simp only [Bool.false_eq_true, if_false]
      congr 1
      rw [beforeFirst, h2]
      simp only [Bool.false_eq_true, if_false]
      congr 1
      rw [beforeFirst, h3]
      simp only [Bool.false_eq_true, if_false]
    rw [hinner]
    rw [beforeFirst]
    rw [show fence.isPrefixOf
        (backtick :: backtick :: backtick :: beforeFirst fenceJson r) = true from by
      rw [fence_chars]; simp [List.isPrefixOf]]
    simp

/-! ## C4: fence handling of the response parser -/

/-- C4: for every decoder, (i) a text with no fence marker is decoded
unmodified; (ii) a well-formed json-tagged fenced block is decoded from the
stripped content of the first such block, whatever follows it; (iii) when
no json tag occurs anywhere, a well-formed untagged fenced block is decoded
from its stripped content; and (iv) in particular a document wrapped in a
json-tagged fence and the same document bare parse identically. -/
theorem parse_json_response_fence_cases :
    ∀ decode : JsonDecoder,
      (∀ t : String, pyIn "```" t = false →
        parse_json_response decode t = decode t) ∧
      (∀ pre body rest : String,
        (∀ c ∈ pre.data, c ≠ backtick) → (∀ c ∈ body.data, c ≠ backtick) →
        rest.data.head? ≠ some backtick →
        parse_json_response decode (pre ++ "```json" ++ body ++ "```" ++ rest)
          = decode (pyStrip body)) ∧
      (∀ pre body rest : String,
        pyIn "```json" (pre ++ "```" ++ body ++ "```" ++ rest) = false →
        (∀ c ∈ pre.data, c ≠ backtick) → (∀ c ∈ body.data, c ≠ backtick) →
        parse_json_response decode (pre ++ "```" ++ body ++ "```" ++ rest)
          = decode (pyStrip body)) ∧
      (∀ body : String,
        (∀ c ∈ body.data, c ≠ backtick) → pyStrip body = body →
        parse_json_response decode ("```json\n" ++ body ++ "\n```")
          = parse_json_response decode body) := by
  intro decode
  have hbt_fj : fenceJson.head? = some backtick := by decide
  have hbt_f : fence.head? = some backtick := by decide
  have hmono : ∀ t : String, pyIn "```" t = false → pyIn "```json" t = false := by
    intro t h
    cases hj : pyIn "```json" t with
    | false => rfl
    | true =>
      have h2 := pyInL_mono
        (show ("```" : String).data.isPrefixOf ("```json" : String).data = true by decide)
        t.data hj
      rw [pyIn] at h
      rw [h] at h2
      cases h2
  have hA : ∀ t : String, pyIn "```" t = false →
      parse_json_response decode t = decode t := by
    intro t h
    rw [parse_json_response, extractJsonBlock, hmono t h, h]
    simp
  have hB : ∀ pre body rest : String,
      (∀ c ∈ pre.data, c ≠ backtick) → (∀ c ∈ body.data, c ≠ backtick) →
      rest.data.head? ≠ some backtick →
      parse_json_response decode (pre ++ "```json" ++ body ++ "```" ++ rest)
        = decode (pyStrip body) := by
    intro pre body rest hpre hbody hrest
    have hdata : (pre ++ "```json" ++ body ++ "```" ++ rest).data
        = pre.data ++ (fenceJson ++ (body.data ++ (fence ++ rest.data))) := by
      simp [String.data_append, fenceJson, fence, List.append_assoc]
    have hafter : afterFirst fenceJson (pre ++ "```json" ++ body ++ "```" ++ rest).data
        = some (body.data ++ (fence ++ rest.data)) := by
      rw [hdata, afterFirst_append_bt hbt_fj hpre]
      exact afterFirst_append_self _ _
    have hguard : pyIn "```json" (pre ++ "```json" ++ body ++ "```" ++ rest) = true := by
      show pyInL fenceJson (pre ++ "```json" ++ body ++ "```" ++ rest).data = true
      rw [pyInL_isSome_afterFirst, hafter]
      rfl
    have hsplit : splitSecond fenceJson (pre ++ "```json" ++ body ++ "```" ++ rest).data
        = beforeFirst fenceJson (body.data ++ (fence ++ rest.data)) := by
      rw [splitSecond, hafter]
    rw [parse_json_response, extractJsonBlock, hguard]
    simp only [if_true]
    rw [hsplit, beforeFirst_append_bt hbt_fj hbody,
      beforeFirst_append_bt hbt_f hbody,
      beforeFirst_fence_block rest.data hrest]
    simp only [List.append_nil]
    rfl
  have hC : ∀ pre body rest : String,
      pyIn "```json" (pre ++ "```" ++ body ++ "```" ++ rest) = false →
      (∀ c ∈ pre.data, c ≠ backtick) → (∀ c ∈ body.data, c ≠ backtick) →
      parse_json_response decode (pre ++ "```" ++ body ++ "```" ++ rest)
        = decode (pyStrip body) := by
    intro pre body rest hnojson hpre hbody
    have hdata : (pre ++ "```" ++ body ++ "```" ++ rest).data
        = pre.data ++ (fence ++ (body.data ++ (fence ++ rest.data))) := by
      simp [String.data_append, fence, List.append_assoc]
    have hafter : afterFirst fence (pre ++ "```" ++ body ++ "```" ++ rest).data
        = some (body.data ++ (fence ++ rest.data)) := by
      rw [hdata, afterFirst_append_bt hbt_f hpre]
      exact afterFirst_append_self _ _
    have hguard : pyIn "```" (pre ++ "```" ++ body ++ "```" ++ rest) = true := by
      show pyInL fence (pre ++ "```" ++ body ++ "```" ++ rest).data = true
      rw [pyInL_isSome_afterFirst, hafter]
      rfl
    have hsplit : splitSecond fence (pre ++ "```" ++ body ++ "```" ++ rest).data
        = beforeFirst fence (body.data ++ (fence ++ rest.data)) := by
      rw [splitSecond, hafter]
    have hff : beforeFirst fence (fence ++ rest.data) = [] := by
      rw [fence_chars]
      exact beforeFirst_append_self _
    have houter : beforeFirst fence body.data = body.data :=
      beforeFirst_eq_self_of_not_in _ (pyInL_false_of_nobt hbt_f _ hbody)
    rw [parse_json_response, extractJsonBlock, hnojson]
    simp only [Bool.false_eq_true, if_false]
    rw [hguard]
    simp only [if_true]
    rw [hsplit, beforeFirst_append_bt hbt_f hbody, hff]
    simp only [List.append_nil]
    rw [houter]
    rfl
  refine ⟨hA, hB, hC, ?_⟩
  intro body hbody hstrip
  have harg : ("```json\n" ++ body ++ "\n```")
      = ("" ++ "```json" ++ ("\n" ++ body ++ "\n") ++ "```" ++ "") := by
    apply String.ext
    simp [String.data_append]
  rw [harg]
  rw [hB "" ("\n" ++ body ++ "\n") ""
    (by intro c hc; simp at hc)
    (by
      intro c hc
      simp only [String.data_append] at hc
      simp only [List.mem_append, List.mem_cons, List.not_mem_nil, or_false] at hc
      rcases hc with (hc | hc) | hc
      · subst hc; decide
      · exact hbody c hc
      · subst hc; decide)
    (by intro hcontra; simp at hcontra)]
  have hstrip2 : pyStrip ("\n" ++ body ++ "\n") = pyStrip body := by
    rw [pyStrip, pyStrip]
    congr 1
    rw [show ("\n" ++ body ++ "\n").data = '\n' :: (body.data ++ ['\n']) from by
      simp [String.data_append]]
    rw [pyStripL_cons_space (by decide), pyStripL_append_space (by decide)]
  rw [hstrip2, hstrip]
  exact (hA body (pyInL_false_of_nobt hbt_f body.data hbody)).symm

/-- C4 witness: the specification's example JSON object parses identically
inside a json-tagged fence and bare, for a concrete decoder. -/
theorem parse_json_response_fence_cases_witness :
    (∀ c ∈ objText.data, c ≠ backtick) ∧ pyStrip objText = objText ∧
    parse_json_response cexDecoder ("```json\n" ++ objText ++ "\n```")
      = parse_json_response cexDecoder objText ∧
    parse_json_response cexDecoder objText
      = .ok (.obj [("primary", "Logistics"), ("secondary", "order_status")]) := by
  refine ⟨by decide, by decide, ?_, by decide⟩
  exact (parse_json_response_fence_cases cexDecoder).2.2.2 objText (by decide) (by decide)

/-! ## C5: which parse outcomes are parse-style failures -/

/-- C5 counterexample: the document `42` decodes as JSON (to a non-object
value) and certainly lacks the `primary` key, yet the parse step fails with
`TypeError`, which the retry/raise machinery treats as the unknown kind,
not as a parse-style (`ValueError`) failure; and on a successful parse of
an object without a `reasoning` key the result's reasoning is the present
empty string, not absent. -/
theorem parse_step_spec_deviation_cex :
    parse_step cexDecoder "42" = .error .typeError ∧
    isParseErr .typeError = false ∧
    parse_step cexDecoder objText
      = .ok { primary := "Logistics", secondary := "order_status", confidence := none,
              reasoning := some "" } ∧
    (⟨"Logistics", "order_status", none, some ""⟩ : IntentResult).reasoning ≠ none := by
  decide

/-- C5 (amended): the parse step fails with a parse-style error
(`JSONDecodeError`/`KeyError`, the kinds mapped to `ValueError`) exactly
when the extracted text does not decode as JSON or decodes to an object
lacking the `primary` or `secondary` key; a decode to a non-object value
fails with the distinct unknown kind instead; and on success the result
carries the decoded `primary` and `secondary`, an absent confidence, and a
reasoning defaulting to the empty string when the key is absent. -/
theorem parse_step_parse_error_iff :
    ∀ (decode : JsonDecoder) (t : String),
      ((∃ e, parse_step decode t = .error e ∧ isParseErr e = true) ↔
        ((∃ m, parse_json_response decode t = .error m) ∨
         (∃ es, parse_json_response decode t = .ok (.obj es) ∧
            (es.lookup "primary" = none ∨ es.lookup "secondary" = none)))) ∧
      (parse_json_response decode t = .ok .nonObj →
        parse_step decode t = .error .typeError ∧ isParseErr .typeError = false) ∧
      (∀ r, parse_step decode t = .ok r →
        ∃ es, parse_json_response decode t = .ok (.obj es) ∧
          es.lookup "primary" = some r.primary ∧
          es.lookup "secondary" = some r.secondary ∧
          r.confidence = none ∧
          r.reasoning = some ((es.lookup "reasoning").getD "")) := by
  intro decode t
  refine ⟨?_, ?_, fun r hr => parse_step_fields hr⟩
  case refine_2 =>
    intro hd
    refine ⟨?_, rfl⟩
    rw [parse_step, hd]
  · cases hd : parse_json_response decode t with
    | error m =>
      constructor
      · intro _
        exact .inl ⟨m, rfl⟩
      · intro _
        refine ⟨.jsonDecode m, ?_, rfl⟩
        rw [parse_step, hd]
    | ok v =>
      cases v with
      | nonObj =>
        constructor
        · rintro ⟨e, he, hpe⟩
          rw [parse_step, hd] at he
          dsimp only at he
          simp only [Except.error.injEq] at he
          rw [← he] at hpe
          simp [isParseErr] at hpe
        · rintro (⟨m, hm⟩ | ⟨es, hes, _⟩)
          · exact absurd hm (by simp)
          · exact absurd hes (by simp)
      | obj es =>
        cases hp : es.lookup "primary" with
        | none =>
          constructor
          · intro _
            exact .inr ⟨es, rfl, .inl hp⟩
          · intro _
            refine ⟨.keyError "primary", ?_, rfl⟩
            rw [parse_step, hd]
            dsimp only
            rw [hp]
        | some p =>
          cases hs : es.lookup "secondary" with
          | none =>
            constructor
            · intro _
              exact .inr ⟨es, rfl, .inr hs⟩
            · intro _
              refine ⟨.keyError "secondary", ?_, rfl⟩
              rw [parse_step, hd]
              dsimp only
              rw [hp]
              dsimp only
              rw [hs]
          | some s =>
            constructor
            · rintro ⟨e, he, hpe⟩
              rw [parse_step, hd] at he
              dsimp only at he
              rw [hp] at he
              dsimp only at he
              rw [hs] at he
              exact absurd he (by simp)
            · rintro (⟨m, hm⟩ | ⟨es2, hes2, hcond⟩)
              · exact absurd hm (by simp)
              · simp only [Except.ok.injEq, PyJson.obj.injEq] at hes2
                subst hes2
                rcases hcond with hc | hc
                · rw [hp] at hc
                  exact absurd hc (by simp)
                · rw [hs] at hc
                  exact absurd hc (by simp)

/-- C5 witness: for a concrete decoder, the document `42` decodes to a
non-object value and the parse step fails with the unknown-kind
`TypeError`. -/
theorem parse_step_parse_error_iff_witness :
    parse_json_response cexDecoder "42" = .ok .nonObj ∧
    parse_step cexDecoder "42" = .error .typeError ∧ isParseErr .typeError = false :=
  ⟨by decide, (parse_step_parse_error_iff cexDecoder "42").2.1 (by decide)⟩

end IntentPipeline
